import Mathlib

/-!
# Crocodile game bot: storage, configuration and event router

A shallow embedding of `src/storage/storage.go` and `src/bot.go`, followed by the
properties proved about them.

Conventions of the embedding.

* Go strings are Lean strings, read as sequences of runes.
* Go `int`/`int64` values are `Int`; sums of counters wrap at 64 bits as on a 64-bit
  platform.
* `time.Time` instants are `Int` seconds on a common clock.
* The database table `user_in_chats` is a list of rows in storage order; the gorm calls
  are modelled by the SQL they issue on that list, without I/O failures.
* A Go `map[string]string` is an association list with unique keys; `range` over it visits
  the entries in list order, which is one of the orders Go may choose.
* The `crocodile`, `model` and `utils` packages are not among the sources; what the
  router needs from them is either a parameter or a definition modelled from the spec.
-/

namespace Crocodile

/-! ## Go standard library functions used by the program -/

/-- Go `unicode.IsSpace`: the Latin-1 spaces and the runes with property White_Space. -/
def isSpace (c : Char) : Bool :=
  c.val = 0x09 || c.val = 0x0A || c.val = 0x0B || c.val = 0x0C || c.val = 0x0D ||
  c.val = 0x20 || c.val = 0x85 || c.val = 0xA0 || c.val = 0x1680 ||
  (0x2000 ≤ c.val && c.val ≤ 0x200A) ||
  c.val = 0x2028 || c.val = 0x2029 || c.val = 0x202F || c.val = 0x205F || c.val = 0x3000

/-- Go `strings.TrimSpace`: drops the leading and the trailing white space. -/
def TrimSpace (s : String) : String :=
  ⟨(s.data.dropWhile isSpace).rdropWhile isSpace⟩

/-- Go `unicode.ToLower`: the ASCII letters are handled inline; every other rune goes
through the lower-case column of the `unicode.CaseRanges` table, which belongs to the Go
library and is the parameter `lowerTable`. -/
def unicodeToLower (lowerTable : Char → Char) (r : Char) : Char :=
  if r.toNat ≤ 0x7F then
    if 0x41 ≤ r.toNat ∧ r.toNat ≤ 0x5A then Char.ofNat (r.toNat + 0x20) else r
  else lowerTable r

/-- Go `strings.ToLower`: `unicode.ToLower` on every rune. -/
def ToLower (lowerTable : Char → Char) (s : String) : String :=
  ⟨s.data.map (unicodeToLower lowerTable)⟩

/-- The replacement list of Go `html.EscapeString` for one rune. -/
def escapeRune (c : Char) : List Char :=
  if c.toNat = 0x26 then "&amp;".data
  else if c.toNat = 0x27 then "&#39;".data
  else if c.toNat = 0x3C then "&lt;".data
  else if c.toNat = 0x3E then "&gt;".data
  else if c.toNat = 0x22 then "&#34;".data
  else [c]

/-- Go `html.EscapeString`. -/
def EscapeString (s : String) : String :=
  ⟨s.data.flatMap escapeRune⟩

/-- The fields of a rune sequence between the occurrences of `sep`; never empty. -/
def splitRunes (sep : Char) : List Char → List (List Char)
  | [] => [[]]
  | c :: cs =>
    if c = sep then [] :: splitRunes sep cs
    else
      match splitRunes sep cs with
      | [] => [[c]]
      | f :: fs => (c :: f) :: fs

/-- Go `strings.Split(s, sep)` for a separator of one rune: all the fields, cut at every
occurrence of the separator. -/
def Split (s : String) (sep : Char) : List String :=
  (splitRunes sep s.data).map String.mk

/-- Go `strings.HasPrefix`. -/
def HasPrefix (s p : String) : Bool :=
  p.data.isPrefixOf s.data

/-- Go `strings.TrimPrefix`. -/
def TrimPrefix (s p : String) : String :=
  if HasPrefix s p then ⟨s.data.drop p.data.length⟩ else s

/-- Decimal digit test. -/
def isDigit (c : Char) : Bool :=
  decide (0x30 ≤ c.toNat) && decide (c.toNat ≤ 0x39)

/-- Go `strconv.Atoi` on a 64-bit platform: an optional sign and at least one decimal
digit, value within the range of `int`; `none` stands for the returned error. -/
def Atoi (s : String) : Option Int :=
  let neg : Bool := s.data.head? = some (Char.ofNat 0x2D)
  let signed : Bool := neg || s.data.head? = some (Char.ofNat 0x2B)
  let ds : List Char := if signed then s.data.drop 1 else s.data
  if ds.isEmpty || !ds.all isDigit then none
  else
    let n : Nat := ds.foldl (fun a c => 10 * a + (c.toNat - 0x30)) 0
    let v : Int := if neg then -(n : Int) else (n : Int)
    if -(2 : Int) ^ 63 ≤ v ∧ v < (2 : Int) ^ 63 then some v else none

/-- A Go `map[string]string`: entries with pairwise distinct keys. -/
abbrev GoMap := List (String × String)

/-- Reading `m[k]`; a missing key reads as the empty string. -/
def GoMap.get (m : GoMap) (k : String) : String :=
  match m.find? (fun e => e.1 == k) with
  | some e => e.2
  | none => ""

/-- The assignment `m[k] = v`. -/
def GoMap.set (m : GoMap) (k v : String) : GoMap :=
  if m.any (fun e => e.1 == k) then m.map (fun e => if e.1 == k then (k, v) else e)
  else m ++ [(k, v)]

/-- The built-in `delete(m, k)`. -/
def GoMap.delete (m : GoMap) (k : String) : GoMap :=
  m.filter (fun e => e.1 != k)

/-! ## Scoreboard rows and the Postgres store (`storage/storage.go`) -/

/-- Modelled from the spec: the `model` package declaring `UserInChat` is missing. Section 3
and section 6 give a row keyed by `(user_id, chat_id)` with columns `name`, `was_host`,
`success`, `guessed`, the counters being integers; the field names are those used by
`storage.go` and `bot.go`. -/
structure UserInChat where
  ID : Int
  ChatID : Int
  Name : String
  WasHost : Int
  Success : Int
  Guessed : Int
deriving DecidableEq

/-- The `Postgres` handle, reduced to the content of table `user_in_chats`. -/
abbrev Postgres := List UserInChat

/-- The SQL condition `id = ? AND chat_id = ?`. -/
def sameKey (id chatID : Int) (u : UserInChat) : Bool :=
  u.ID == id && u.ChatID == chatID

/-- The condition gorm builds from the struct `UserInChat{ID: id, ChatID: chatID}`: one
equation per field with a non-zero value; a zero-valued field is left out. -/
def structCond (id chatID : Int) (u : UserInChat) : Bool :=
  (id == 0 || u.ID == id) && (chatID == 0 || u.ChatID == chatID)

/-- The ordering `id ASC` that gorm `First` adds for the primary field. -/
def idAsc (a b : UserInChat) : Prop := a.ID ≤ b.ID

instance : DecidableRel idAsc := fun a b => Int.decLe a.ID b.ID

instance : IsTotal UserInChat idAsc := ⟨fun a b => le_total a.ID b.ID⟩

instance : IsTrans UserInChat idAsc := ⟨fun _ _ _ hab hbc => le_trans hab hbc⟩

/-- The query of gorm `First` with a struct condition:
`SELECT .. WHERE <non-zero fields> ORDER BY id ASC LIMIT 1`. -/
def First (db : Postgres) (id chatID : Int) : Option UserInChat :=
  ((db.filter (structCond id chatID)).insertionSort idAsc).head?

/-- The gorm call `db.FirstOrCreate(&user, UserInChat{ID: id, ChatID: chatID})`: the row
read by `First`, or else a freshly inserted row holding the fields of the condition and
zero values. Returns the row read into `user`, of which the caller reads the counters, and
the table. What an insert with a zero `ID` or `ChatID` leaves in the table depends on
the table schema (declared with the missing `model` package) and is the parameter
`insertBlankKey`. -/
def FirstOrCreate (insertBlankKey : Postgres → Int → Int → Postgres) (db : Postgres)
    (id chatID : Int) : UserInChat × Postgres :=
  match First db id chatID with
  | some u => (u, db)
  | none =>
    let u : UserInChat :=
      { ID := id, ChatID := chatID, Name := "", WasHost := 0, Success := 0, Guessed := 0 }
    if id ≠ 0 ∧ chatID ≠ 0 then (u, db ++ [u]) else (u, insertBlankKey db id chatID)

/-- The gorm call `db.Table("user_in_chats").Where("id = ? AND chat_id = ?", id, chatID)`
followed by `Updates` with the four columns `name`, `was_host`, `success`, `guessed`. -/
def Updates (db : Postgres) (id chatID : Int) (name : String)
    (wasHost success guessed : Int) : Postgres :=
  db.map fun u =>
    if sameKey id chatID u then
      { u with Name := name, WasHost := wasHost, Success := success, Guessed := guessed }
    else u

/-- The value of a Go `int` sum on a 64-bit platform: the exact sum reduced to the range
from `-2^63` to `2^63 - 1`. -/
def wrapInt64 (x : Int) : Int :=
  (x + 2 ^ 63) % 2 ^ 64 - 2 ^ 63

/-- `Postgres.IncrementUserStats`; the Go function always returns a nil error, so only the
new table is returned. -/
def IncrementUserStats (insertBlankKey : Postgres → Int → Int → Postgres) (p : Postgres)
    (givenUser : UserInChat) : Postgres :=
  let (user, db) := FirstOrCreate insertBlankKey p givenUser.ID givenUser.ChatID
  Updates db givenUser.ID givenUser.ChatID givenUser.Name
    (wrapInt64 (user.WasHost + givenUser.WasHost))
    (wrapInt64 (user.Success + givenUser.Success))
    (wrapInt64 (user.Guessed + givenUser.Guessed))

/-- An insert with a zero key field that the database refuses. -/
def refuseBlankKey (db : Postgres) (_id _chatID : Int) : Postgres := db

/-- The SQL condition `guessed > 0 AND chat_id = ?`. -/
def ratingCond (chatID : Int) (u : UserInChat) : Bool :=
  decide (0 < u.Guessed) && u.ChatID == chatID

/-- The SQL ordering `guessed desc`: `a` may stand before `b`. -/
def guessedDesc (a b : UserInChat) : Prop := b.Guessed ≤ a.Guessed

instance : DecidableRel guessedDesc := fun a b => Int.decLe b.Guessed a.Guessed

instance : IsTotal UserInChat guessedDesc := ⟨fun a b => le_total b.Guessed a.Guessed⟩

instance : IsTrans UserInChat guessedDesc := ⟨fun _ _ _ hab hbc => le_trans hbc hab⟩

/-- `Postgres.GetRating`: `Where("guessed > 0 AND chat_id = ?").Limit(25).Order("guessed desc")`,
that is `SELECT .. WHERE .. ORDER BY guessed desc LIMIT 25`. The query names no second
sort key; rows with equal `guessed` keep the order in which the table yields them. -/
def GetRating (p : Postgres) (chatID : Int) : List UserInChat :=
  ((p.filter (ratingCond chatID)).insertionSort guessedDesc).take 25

/-- Rows with equal `guessed` stand in ascending user id order. -/
def tiesAscendingID (l : List UserInChat) : Prop :=
  l.Pairwise fun a b => a.Guessed = b.Guessed → a.ID ≤ b.ID

instance (l : List UserInChat) : Decidable (tiesAscendingID l) := by
  unfold tiesAscendingID; infer_instance

/-- The rows of scenario 6 of the spec, in chat 7. -/
def ratingRow (u g : Int) : UserInChat :=
  { ID := u, ChatID := 7, Name := "", WasHost := 0, Success := 0, Guessed := g }

/-- The type `storage.KW`; the values stored by the program are strings. -/
abbrev KW := GoMap

/-- `storage.NewConnString`: the five base fields, then one ` key=value` per entry of `kw`. -/
def NewConnString (host user pass dbname : String) (port : Int) (kw : KW) : String :=
  let baseString := "host=" ++ host ++ " port=" ++ toString port ++ " user=" ++ user ++
    " dbname=" ++ dbname ++ " password=" ++ pass
  kw.foldl (fun acc e => acc ++ (" " ++ e.1 ++ "=" ++ e.2)) baseString

/-! ## Configuration from the environment (`bot.go`) -/

/-- The struct `dbCredentials`. -/
structure dbCredentials where
  Host : String
  User : String
  Pass : String
  Name : String
  Port : Int
  KW : KW
deriving DecidableEq

/-- The value of the local variable of the same role in `getDbCredentialsFromEnv`. -/
def dbPrefix : String := "CROCODILE_GAME_DB_"

/-- The first loop of `getDbCredentialsFromEnv`: `kv := strings.Split(v, "=")` and
`env[kv[0]] = kv[1]` for every entry; `none` is the index-out-of-range panic on an entry
without `=`. -/
def readEnv : List String → GoMap → Option GoMap
  | [], env => some env
  | v :: rest, env =>
    let kv := Split v '='
    match kv[0]?, kv[1]? with
    | some k, some x => readEnv rest (env.set k x)
    | _, _ => none

/-- The last loop of `getDbCredentialsFromEnv`: every remaining entry whose key carries the
DB marker goes to `KW` under the lower-cased rest of its name. -/
def collectKW (lowerTable : Char → Char) (env : GoMap) : KW :=
  env.foldl
    (fun kw e =>
      if HasPrefix e.1 dbPrefix then kw.set (ToLower lowerTable (TrimPrefix e.1 dbPrefix)) e.2
      else kw)
    []

/-- The ways `getDbCredentialsFromEnv` fails: the run-time panic of `kv[1]` on an entry
without `=`, and the error returned by `strconv.Atoi`. -/
inductive EnvFailure where
  | indexOutOfRange
  | atoiError
deriving DecidableEq

/-- `getDbCredentialsFromEnv` on the list returned by `os.Environ()`. -/
def getDbCredentialsFromEnv (lowerTable : Char → Char) (envList : List String) :
    Except EnvFailure dbCredentials :=
  match readEnv envList [] with
  | none => .error .indexOutOfRange
  | some env =>
    match Atoi (env.get (dbPrefix ++ "PORT")) with
    | none => .error .atoiError
    | some port =>
      let env1 := env.delete (dbPrefix ++ "PORT")
      let host := env1.get (dbPrefix ++ "HOST")
      let user := env1.get (dbPrefix ++ "USER")
      let pass := env1.get (dbPrefix ++ "PASS")
      let name := env1.get (dbPrefix ++ "NAME")
      let env2 := (((env1.delete (dbPrefix ++ "HOST")).delete (dbPrefix ++ "USER")).delete
        (dbPrefix ++ "PASS")).delete (dbPrefix ++ "NAME")
      .ok { Host := host, User := user, Pass := pass, Name := name, Port := port,
            KW := collectKW lowerTable env2 }

/-- The connection string built in `main` from the credentials. -/
def connStringOf (c : dbCredentials) : String :=
  NewConnString c.Host c.User c.Pass c.Name c.Port c.KW

/-! ## Event router (`bot.go`) -/

/-- The guess normalisation of `textHandler`: `strings.TrimSpace(strings.ToLower(x))`. -/
def normalise (lowerTable : Char → Char) (x : String) : String :=
  TrimSpace (ToLower lowerTable x)

/-- The fields of a telebot `User` read by the router. -/
structure User where
  ID : Int
  FirstName : String
  LastName : String
deriving DecidableEq

/-- The fields of a telebot `Message` read by the router; `ChatID` is `m.Chat.ID`. -/
structure Message where
  ID : Int
  ChatID : Int
  Sender : User
  Text : String
deriving DecidableEq

/-- The fields of a telebot `Callback` read by the router. -/
structure Callback where
  Sender : User
  Message : Message
deriving DecidableEq

/-- The two inline keyboards built by `bindButtonsHandlers`. -/
inductive Keyboard where
  | wordsInlineKeys
  | newGameInlineKeys
deriving DecidableEq

/-- What a handler does, in program order: the calls it makes on the machine of the chat
and on the machine factory, the messages it sends through the bot, and the lines it logs. -/
inductive Event where
  | NewMachine (chatID messageID : Int)
  | GetHost
  | GetWord
  | GetStartedTime
  | SetNewRandomWord
  | StopGame
  | StartNewGameAndReturnWord (host : Int) (username : String)
  | CheckWordAndSetWinner (word : String) (id : Int) (username : String)
  | Send (chatID : Int) (text : String) (modeHTML : Bool) (keys : Option Keyboard)
  | Respond (text : String)
  | Println (err : String)
deriving DecidableEq

/-- The `crocodile` package (type `Machine`, the factory and the two error texts) is not
among the sources, so the router is written against this interface, taken as a parameter:
its members are the methods and constants that `bot.go` uses, over any machine state `M`.
Methods that change the machine return the new state; the two that read the clock take the
current instant first. Of the results of `SetNewRandomWord` only the word is kept, the
router discards the error. -/
structure MachineOps (M : Type) where
  ErrGameAlreadyStarted : String
  ErrWaitingForWinnerRespond : String
  NewMachine : Int → Int → M
  GetHost : M → Int
  GetWord : M → String
  GetStartedTime : M → Int
  SetNewRandomWord : M → String × M
  StopGame : M → M
  StartNewGameAndReturnWord : Int → M → Int → String → Except String String × M
  CheckWordAndSetWinner : Int → M → String → Int → String → Bool × M

/-- The global `machines`: chat id to machine. -/
abbrev Machines (M : Type) := Int → Option M

/-- Modelled from the spec: `utils.CalculateTimeDiff` is missing. The router reads only the
middle result and compares it with 2 where section 4.5 has `now - started_at <
ROUND_DURATION`, `ROUND_DURATION` being 2 minutes: the middle result is the number of whole
minutes from `t2` to `t1`; the other two are the whole hours and the seconds. -/
def CalculateTimeDiff (t1 t2 : Int) : Int × Int × Int :=
  ((t1 - t2) / 3600, (t1 - t2) / 60, t1 - t2)

/-- The display name computed by the handlers:
`strings.TrimSpace(sender.FirstName + " " + sender.LastName)`. -/
def usernameOf (sender : User) : String :=
  TrimSpace (sender.FirstName ++ " " ++ sender.LastName)

/-- The start of both start handlers: the machine of the chat, created through the
factory when the chat has none. -/
def machineOf {M : Type} (ops : MachineOps M) (machines : Machines M)
    (chatID messageID : Int) : M × List Event :=
  match machines chatID with
  | some ma => (ma, [])
  | none => (ops.NewMachine chatID messageID, [Event.NewMachine chatID messageID])

/-- The call `log.Println(err)` guarded by `err != nil`. -/
def logIfError (res : Except String String) : List Event :=
  match res with
  | .ok _ => []
  | .error err => [Event.Println err]

/-- The handler `startNewGameHandler` of the `/start` command at instant `now`. -/
def startNewGameHandler {M : Type} (ops : MachineOps M) (now : Int) (machines : Machines M)
    (m : Message) : Machines M × List Event :=
  let mc := machineOf ops machines m.ChatID m.ID
  let username := usernameOf m.Sender
  let r := ops.StartNewGameAndReturnWord now mc.1 m.Sender.ID username
  let calls := mc.2 ++ [Event.StartNewGameAndReturnWord m.Sender.ID username]
  let announce := Event.Send m.ChatID (m.Sender.FirstName ++ " должен объяснить слово за 2 минуты")
    false (some Keyboard.wordsInlineKeys)
  match r.1 with
  | .ok _ => (Function.update machines m.ChatID (some r.2), calls ++ [announce])
  | .error err =>
    if err = ops.ErrGameAlreadyStarted then
      if (CalculateTimeDiff now (ops.GetStartedTime r.2)).2.1 < 2 then
        (Function.update machines m.ChatID (some r.2),
          calls ++ [Event.GetStartedTime,
            Event.Send m.ChatID "Игра уже начата! Ожидайте 2 минуты" false none])
      else
        let r2 := ops.StartNewGameAndReturnWord now (ops.StopGame r.2) m.Sender.ID username
        (Function.update machines m.ChatID (some r2.2),
          calls ++ [Event.GetStartedTime, Event.StopGame,
            Event.StartNewGameAndReturnWord m.Sender.ID username] ++ logIfError r2.1 ++ [announce])
    else
      (Function.update machines m.ChatID (some r.2), calls ++ [Event.Println err])

/-- The handler `startNewGameHandlerCallback` of the `new_game` button at instant `now`. -/
def startNewGameHandlerCallback {M : Type} (ops : MachineOps M) (now : Int)
    (machines : Machines M) (c : Callback) : Machines M × List Event :=
  let m := c.Message
  let mc := machineOf ops machines m.ChatID m.ID
  let username := usernameOf c.Sender
  let r := ops.StartNewGameAndReturnWord now mc.1 c.Sender.ID username
  let calls := mc.2 ++ [Event.StartNewGameAndReturnWord c.Sender.ID username]
  let announce := Event.Send m.ChatID (c.Sender.FirstName ++ " должен объяснить слово за 2 минуты")
    false (some Keyboard.wordsInlineKeys)
  match r.1 with
  | .ok _ => (Function.update machines m.ChatID (some r.2), calls ++ [announce])
  | .error err =>
    if err = ops.ErrGameAlreadyStarted then
      if (CalculateTimeDiff now (ops.GetStartedTime r.2)).2.1 < 2 then
        (Function.update machines m.ChatID (some r.2),
          calls ++ [Event.GetStartedTime, Event.Respond "Игра уже начата! Ожидайте 2 минуты"])
      else
        let r2 := ops.StartNewGameAndReturnWord now (ops.StopGame r.2) c.Sender.ID username
        (Function.update machines m.ChatID (some r2.2),
          calls ++ [Event.GetStartedTime, Event.StopGame,
            Event.StartNewGameAndReturnWord c.Sender.ID username] ++ logIfError r2.1 ++ [announce])
    else if err = ops.ErrWaitingForWinnerRespond then
      (Function.update machines m.ChatID (some r.2),
        calls ++ [Event.Respond "У победителя есть 5 секунд на решение!"])
    else
      (Function.update machines m.ChatID (some r.2), calls ++ [Event.Println err])

/-- The handler `textHandler` of a text message at instant `now`; `DEBUG` is the global
flag set from `CROCODILE_GAME_DEV`. -/
def textHandler {M : Type} (ops : MachineOps M) (lowerTable : Char → Char) (DEBUG : Bool)
    (now : Int) (machines : Machines M) (m : Message) : Machines M × List Event :=
  match machines m.ChatID with
  | none => (machines, [])
  | some ma =>
    if ops.GetHost ma ≠ m.Sender.ID ∨ DEBUG = true then
      let word := normalise lowerTable m.Text
      let username := usernameOf m.Sender
      let r := ops.CheckWordAndSetWinner now ma word m.Sender.ID username
      if r.1 = true then
        (Function.update machines m.ChatID (some r.2),
          [Event.GetHost, Event.CheckWordAndSetWinner word m.Sender.ID username,
            Event.Send m.ChatID (username ++ " отгадал слово <b>" ++ word ++ "</b>") true
              (some Keyboard.newGameInlineKeys)])
      else
        (Function.update machines m.ChatID (some r.2),
          [Event.GetHost, Event.CheckWordAndSetWinner word m.Sender.ID username])
    else (machines, [Event.GetHost])

/-- The handler `seeWordCallbackHandler` of the `see_word` button. -/
def seeWordCallbackHandler {M : Type} (ops : MachineOps M) (machines : Machines M)
    (c : Callback) : Machines M × List Event :=
  match machines c.Message.ChatID with
  | none => (machines, [])
  | some m =>
    if c.Sender.ID ≠ ops.GetHost m then
      (machines, [Event.GetHost, Event.Respond "Это слово предназначено не для тебя!"])
    else
      (machines, [Event.GetHost, Event.GetWord, Event.Respond (ops.GetWord m)])

/-- The handler `nextWordCallbackHandler` of the `next_word` button. -/
def nextWordCallbackHandler {M : Type} (ops : MachineOps M) (machines : Machines M)
    (c : Callback) : Machines M × List Event :=
  match machines c.Message.ChatID with
  | none => (machines, [])
  | some m =>
    if c.Sender.ID ≠ ops.GetHost m then
      (machines, [Event.GetHost, Event.Respond "Это слово предназначено не для тебя!"])
    else
      let r := ops.SetNewRandomWord m
      (Function.update machines c.Message.ChatID (some r.2),
        [Event.GetHost, Event.SetNewRandomWord, Event.Respond r.1])

/-- One line of the rating table: `"<b>%d</b>. %s — %d %s.\n"` with the rank, the escaped
name, the count and its noun. `DetectCaseAnswers` of the missing `utils` package is a
parameter. -/
def ratingLine (DetectCaseAnswers : Int → String) (k : Nat) (v : UserInChat) : String :=
  "<b>" ++ toString (k + 1) ++ "</b>. " ++ EscapeString v.Name ++ " — " ++
    toString v.Guessed ++ " " ++ DetectCaseAnswers v.Guessed ++ ".\n"

/-- The loop of `ratingHandler` appending one line per row; `k` is the index of the first
row of `rating`. -/
def ratingLines (DetectCaseAnswers : Int → String) : Nat → List UserInChat → String → String
  | _, [], outString => outString
  | k, v :: rest, outString =>
    ratingLines DetectCaseAnswers (k + 1) rest (outString ++ ratingLine DetectCaseAnswers k v)

/-- The handler `ratingHandler` of the `/rating` command, reading the store `p`. -/
def ratingHandler (DetectCaseAnswers : Int → String) (p : Postgres) (m : Message) :
    List Event :=
  let rating := GetRating p m.ChatID
  if rating.length < 1 then
    [Event.Send m.ChatID "Данных пока недостаточно!" false none]
  else
    [Event.Send m.ChatID
      (ratingLines DetectCaseAnswers 0 rating "Топ-25 <b>игроков в крокодила</b> 🐊\n\n")
      true none]

/-! ## The machine of the spec -/

/-- Modelled from the spec: section 4.5, the three states of a machine. -/
inductive State where
  | Idle
  | Running
  | AwaitingWinnerStart
deriving DecidableEq

/-- Modelled from the spec: section 3, a round; `winner` holds `winner_id` and
`winner_declared_at` once a guess has won. -/
structure Round where
  host_id : Int
  word : String
  started_at : Int
  winner : Option (Int × Int)

/-- Modelled from the spec: section 3, the machine of a chat, with the words the provider
will draw (`words`, of which `drawn` are used). The score deltas a machine emits go to the
store and not to the router; they are left out. -/
structure Machine where
  chat_id : Int
  round : Option Round
  words : Nat → String
  drawn : Nat

/-- Modelled from the spec: section 4.5, `WINNER_EXCLUSIVE_WINDOW`, in seconds. -/
def WINNER_EXCLUSIVE_WINDOW : Int := 5

/-- Modelled from the spec: section 4.5, `state()`; no round in `Idle`, a round without
winner in `Running`, a round with winner in `AwaitingWinnerStart`. -/
def Machine.state (m : Machine) : State :=
  match m.round with
  | none => State.Idle
  | some r => if r.winner.isSome then State.AwaitingWinnerStart else State.Running

/-- Modelled from the spec: section 4.5, the transition into `Running`: a word is drawn,
`host_id := caller_id`, `started_at := now`. -/
def Machine.enterRunning (m : Machine) (now caller : Int) : Except String String × Machine :=
  (.ok (m.words m.drawn),
    { m with
      round := some { host_id := caller, word := m.words m.drawn, started_at := now, winner := none }
      drawn := m.drawn + 1 })

/-- Modelled from the spec: section 4.5, the machine with the operations `start_round`,
`stop_round`, `submit_guess`, `reveal_word`, `rotate_word` and the accessors, under the
method names of `bot.go`. Where `bot.go` itself holds a part of an operation, the method has
the rest: a start on a running round always answers `ErrGameAlreadyStarted` (the router
tests the two minutes and stops the round), a guess is only compared with the word (the
router tests the host and `DEBUG`), and the word methods do not test the caller (the
router does). The accessors of a machine without round return zero values, and the two
error texts, declared in the missing package, are the names of their constants. -/
def specMachine (lowerTable : Char → Char) (words : Nat → String) : MachineOps Machine where
  ErrGameAlreadyStarted := "ErrGameAlreadyStarted"
  ErrWaitingForWinnerRespond := "ErrWaitingForWinnerRespond"
  NewMachine := fun chatID _ => { chat_id := chatID, round := none, words := words, drawn := 0 }
  GetHost := fun m => match m.round with
    | some r => r.host_id
    | none => 0
  GetWord := fun m => match m.round with
    | some r => r.word
    | none => ""
  GetStartedTime := fun m => match m.round with
    | some r => r.started_at
    | none => 0
  SetNewRandomWord := fun m => match m.round with
    | some r => (m.words m.drawn,
        { m with round := some { r with word := m.words m.drawn }, drawn := m.drawn + 1 })
    | none => ("", m)
  StopGame := fun m => { m with round := none }
  StartNewGameAndReturnWord := fun now m caller _ => match m.round with
    | none => m.enterRunning now caller
    | some r => match r.winner with
      | none => (.error "ErrGameAlreadyStarted", m)
      | some w =>
        if caller ≠ w.1 ∧ now - w.2 < WINNER_EXCLUSIVE_WINDOW then
          (.error "ErrWaitingForWinnerRespond", m)
        else m.enterRunning now caller
  CheckWordAndSetWinner := fun now m word guesser _ => match m.round with
    | none => (false, m)
    | some r =>
      if r.winner.isNone ∧ normalise lowerTable word = normalise lowerTable r.word then
        (true, { m with round := some { r with winner := some (guesser, now) } })
      else (false, m)

/-! ## Fixed inputs for the scenarios of the spec -/

/-- The word source of the scenarios: `"apple"` first, then `"river"`. -/
def scenarioWords (n : Nat) : String :=
  if n = 0 then "apple" else "river"

/-- The machine operations of the scenarios. -/
def scenarioOps : MachineOps Machine := specMachine id scenarioWords

/-- A text message of chat 7. -/
def msgOf (id : Int) (first last text : String) : Message :=
  { ID := 100, ChatID := 7, Sender := { ID := id, FirstName := first, LastName := last },
    Text := text }

/-- A button press in chat 7. -/
def pressOf (id : Int) (first last : String) : Callback :=
  { Sender := { ID := id, FirstName := first, LastName := last },
    Message := msgOf 0 "bot" "" "" }

/-- Scenario 1 up to the start: Alice (1) sends `/start` at t=0 in a chat without machine. -/
def afterAliceStart : Machines Machine :=
  (startNewGameHandler scenarioOps 0 (fun _ => none) (msgOf 1 "Alice" "" "/start")).1

/-- Scenario 1: Bob (2) then sends `"APPLE "` at t=10 and wins. -/
def afterBobWins : Machines Machine :=
  (textHandler scenarioOps id false 10 afterAliceStart (msgOf 2 "Bob" "" "APPLE ")).1

/-! ## Properties of the store -/

theorem sameKey_Updates_row (id chatID : Int) (name : String) (a b c : Int) (u : UserInChat) :
    sameKey id chatID
      (if sameKey id chatID u then
        { u with Name := name, WasHost := a, Success := b, Guessed := c } else u)
      = sameKey id chatID u := by
  by_cases h : sameKey id chatID u = true
  · simp only [h, if_true]
    simpa [sameKey] using h
  · simp [h]

theorem mem_Updates {db : Postgres} {id chatID : Int} {name : String} {a b c : Int}
    {row : UserInChat} (hrow : row ∈ Updates db id chatID name a b c)
    (hkey : sameKey id chatID row = true) :
    row.Name = name ∧ row.WasHost = a ∧ row.Success = b ∧ row.Guessed = c := by
  unfold Updates at hrow
  obtain ⟨u, _, rfl⟩ := List.mem_map.mp hrow
  rw [sameKey_Updates_row] at hkey
  simp [hkey]

theorem exists_key_Updates {db : Postgres} {id chatID : Int} (name : String) (a b c : Int)
    {u : UserInChat} (hu : u ∈ db) (hkey : sameKey id chatID u = true) :
    ∃ row ∈ Updates db id chatID name a b c, sameKey id chatID row = true := by
  refine ⟨_, List.mem_map.mpr ⟨u, hu, rfl⟩, ?_⟩
  rw [sameKey_Updates_row]
  exact hkey

theorem structCond_eq_sameKey {id chatID : Int} (hid : id ≠ 0) (hchat : chatID ≠ 0) :
    structCond id chatID = sameKey id chatID := by
  funext u
  have h1 : (id == 0) = false := beq_eq_false_iff_ne.mpr hid
  have h2 : (chatID == 0) = false := beq_eq_false_iff_ne.mpr hchat
  simp only [structCond, sameKey, h1, h2, Bool.false_or]

theorem head?_filter_eq_find? {α : Type} (q : α → Bool) (l : List α) :
    (l.filter q).head? = l.find? q := by
  induction l with
  | nil => rfl
  | cons a l ih =>
    by_cases h : q a = true
    · simp [List.filter_cons, List.find?_cons, h]
    · simp [List.filter_cons, List.find?_cons, h, ih]

theorem First_eq_find? (db : Postgres) {id chatID : Int} (hid : id ≠ 0) (hchat : chatID ≠ 0) :
    First db id chatID = db.find? (sameKey id chatID) := by
  unfold First
  rw [structCond_eq_sameKey hid hchat]
  have hsorted : (db.filter (sameKey id chatID)).Sorted idAsc := by
    refine List.Pairwise.imp_of_mem ?_ (List.pairwise_of_forall (R := fun _ _ => True) ?_)
    · intro a b ha hb _
      have h1 := (List.mem_filter.mp ha).2
      have h2 := (List.mem_filter.mp hb).2
      simp only [sameKey, Bool.and_eq_true, beq_iff_eq] at h1 h2
      exact le_of_eq (h1.1.trans h2.1.symm)
    · intros
      trivial
  rw [hsorted.insertionSort_eq, head?_filter_eq_find?]

/-- C1, counterexample. Chat 7 holds the row of user 5 with 3 guesses. A row with `ID = 0`
leaves the table as it was, with no row keyed `(0, 7)`: gorm drops the zero `ID` from the
condition, reads the row of user 5 and inserts nothing, and the update finds no row. And
one more guess for a user who holds `2^63 - 1` guesses stores `-2^63`, not the sum. -/
theorem IncrementUserStats_not_for_every_row :
    IncrementUserStats refuseBlankKey [ratingRow 5 3] (ratingRow 0 1) = [ratingRow 5 3] ∧
    (¬ ∃ row ∈ IncrementUserStats refuseBlankKey [ratingRow 5 3] (ratingRow 0 1),
      sameKey 0 7 row = true) ∧
    IncrementUserStats refuseBlankKey [ratingRow 1 9223372036854775807] (ratingRow 1 1) =
      [ratingRow 1 (-9223372036854775808)] ∧
    (-9223372036854775808 : Int) ≠ 9223372036854775807 + 1 := by
  decide

/-- C1, amended. For a row `r` with non-zero `ID` and `ChatID`, after `IncrementUserStats`
the table has a row keyed `(r.ID, r.ChatID)`, and every row with that key carries the name
`r.Name` and, when the table had no such row, the three counters of `r`, and otherwise the
counters of the row found before plus those of `r`, each sum taken as a 64-bit Go `int`:
the plain sum whenever it lies between `-2^63` and `2^63 - 1`. -/
theorem IncrementUserStats_upsert (insertBlankKey : Postgres → Int → Int → Postgres)
    (p : Postgres) (r : UserInChat) (hid : r.ID ≠ 0) (hchat : r.ChatID ≠ 0) :
    (∃ row ∈ IncrementUserStats insertBlankKey p r, sameKey r.ID r.ChatID row = true) ∧
    (∀ row ∈ IncrementUserStats insertBlankKey p r, sameKey r.ID r.ChatID row = true →
      row.Name = r.Name ∧
      match p.find? (sameKey r.ID r.ChatID) with
      | none =>
        row.WasHost = wrapInt64 r.WasHost ∧ row.Success = wrapInt64 r.Success ∧
          row.Guessed = wrapInt64 r.Guessed
      | some old =>
        row.WasHost = wrapInt64 (old.WasHost + r.WasHost) ∧
          row.Success = wrapInt64 (old.Success + r.Success) ∧
          row.Guessed = wrapInt64 (old.Guessed + r.Guessed)) ∧
    ∀ x : Int, -2 ^ 63 ≤ x → x < 2 ^ 63 → wrapInt64 x = x := by
  refine ⟨?_, ?_, ?_⟩
  · unfold IncrementUserStats FirstOrCreate
    rw [First_eq_find? p hid hchat]
    cases hfind : p.find? (sameKey r.ID r.ChatID) with
    | none =>
      simp only [hid, hchat, ne_eq, not_false_eq_true, and_self, if_true]
      exact exists_key_Updates _ _ _ _ (List.mem_append_right p (List.mem_singleton_self _))
        (by simp [sameKey])
    | some old =>
      exact exists_key_Updates _ _ _ _ (List.mem_of_find?_eq_some hfind)
        (List.find?_some hfind)
  · unfold IncrementUserStats FirstOrCreate
    rw [First_eq_find? p hid hchat]
    cases hfind : p.find? (sameKey r.ID r.ChatID) with
    | none =>
      simp only [hid, hchat, ne_eq, not_false_eq_true, and_self, if_true]
      intro row hrow hkey
      have h := mem_Updates hrow hkey
      simpa using h
    | some old =>
      intro row hrow hkey
      exact mem_Updates hrow hkey
  · intro x h1 h2
    unfold wrapInt64
    omega

/-- Witness of C1: in chat 7, user 1 holds 5 guesses and gains 2 under a new name, and user
2, who has no row, gains 4. -/
theorem IncrementUserStats_upsert_witness :
    (( { ratingRow 1 7 with Name := "Alice" } : UserInChat).Name = "Alice" ∧
      ( { ratingRow 1 7 with Name := "Alice" } : UserInChat).WasHost = wrapInt64 (0 + 0) ∧
      ( { ratingRow 1 7 with Name := "Alice" } : UserInChat).Success = wrapInt64 (0 + 0) ∧
      ( { ratingRow 1 7 with Name := "Alice" } : UserInChat).Guessed = wrapInt64 (5 + 2)) ∧
    ((ratingRow 2 4).Name = "" ∧
      (ratingRow 2 4).WasHost = wrapInt64 0 ∧ (ratingRow 2 4).Success = wrapInt64 0 ∧
      (ratingRow 2 4).Guessed = wrapInt64 4) :=
  ⟨(IncrementUserStats_upsert refuseBlankKey [ratingRow 1 5]
      { ratingRow 1 2 with Name := "Alice" } (by decide) (by decide)).2.1
      { ratingRow 1 7 with Name := "Alice" } (by decide) (by decide),
   (IncrementUserStats_upsert refuseBlankKey [ratingRow 1 5] (ratingRow 2 4)
      (by decide) (by decide)).2.1 (ratingRow 2 4) (by decide) (by decide)⟩

theorem GetRating_sorted (p : Postgres) (chatID : Int) :
    (GetRating p chatID).Sorted guessedDesc :=
  (List.sorted_insertionSort guessedDesc _).sublist (List.take_sublist _ _)

theorem GetRating_perm_of_le (p : Postgres) (chatID : Int)
    (h : (p.filter (ratingCond chatID)).length ≤ 25) :
    (GetRating p chatID).Perm (p.filter (ratingCond chatID)) := by
  unfold GetRating
  rw [List.take_of_length_le (by rw [List.length_insertionSort]; exact h)]
  exact List.perm_insertionSort _ _

theorem mem_GetRating {p : Postgres} {chatID : Int} {u : UserInChat}
    (h : u ∈ GetRating p chatID) : u ∈ p ∧ ratingCond chatID u = true := by
  have h1 := List.mem_of_mem_take h
  have h2 := (List.perm_insertionSort guessedDesc _).mem_iff.mp h1
  exact List.mem_filter.mp h2

/-- C2, counterexample. With the rows of users 2 and 1 stored in that order, both holding
5 guesses in chat 7, `GetRating` returns user 2 before user 1: equal counts do not come
out in ascending user id order. -/
theorem GetRating_ties_not_by_ID :
    GetRating [ratingRow 2 5, ratingRow 1 5, ratingRow 3 0] 7 = [ratingRow 2 5, ratingRow 1 5] ∧
    ¬ tiesAscendingID (GetRating [ratingRow 2 5, ratingRow 1 5, ratingRow 3 0] 7) := by
  decide

/-- C2, amended. The list returned by `GetRating` is ordered by `guessed` descending; for
the rows of scenario 6 it holds exactly the rows of users 1 and 2. -/
theorem GetRating_ordered (p : Postgres) (chatID : Int) :
    (GetRating p chatID).Pairwise (fun a b => b.Guessed ≤ a.Guessed) ∧
    (GetRating [ratingRow 1 5, ratingRow 2 5, ratingRow 3 0] 7).Perm
      [ratingRow 1 5, ratingRow 2 5] :=
  ⟨GetRating_sorted p chatID, by decide⟩

/-- C7. Every row returned by `GetRating p c` is a row of chat `c` with `guessed > 0`, at
most 25 rows are returned, and when the chat has at most 25 rows with `guessed > 0` the
result is a rearrangement of exactly those rows, so each of them is returned. -/
theorem GetRating_rows (p : Postgres) (c : Int) :
    (∀ u ∈ GetRating p c, u ∈ p ∧ u.ChatID = c ∧ 0 < u.Guessed) ∧
    (GetRating p c).length ≤ 25 ∧
    ((p.filter (fun u => decide (0 < u.Guessed) && u.ChatID == c)).length ≤ 25 →
      (GetRating p c).Perm (p.filter (fun u => decide (0 < u.Guessed) && u.ChatID == c)) ∧
      ∀ u ∈ p, u.ChatID = c → 0 < u.Guessed → u ∈ GetRating p c) := by
  refine ⟨?_, ?_, ?_⟩
  · intro u hu
    obtain ⟨hp, hc⟩ := mem_GetRating hu
    simp only [ratingCond, Bool.and_eq_true, decide_eq_true_eq, beq_iff_eq] at hc
    exact ⟨hp, hc.2, hc.1⟩
  · unfold GetRating
    exact List.length_take_le _ _
  · intro hlen
    have hperm := GetRating_perm_of_le p c hlen
    refine ⟨hperm, ?_⟩
    intro u hu hc hg
    refine hperm.mem_iff.mpr (List.mem_filter.mpr ⟨hu, ?_⟩)
    simp [ratingCond, hc, hg]

/-- Witness of C7: the table of scenario 6 with a row of another chat added. -/
theorem GetRating_rows_witness :
    ([ratingRow 1 5, { ratingRow 9 4 with ChatID := 8 }, ratingRow 2 5, ratingRow 3 0].filter
        (fun u => decide (0 < u.Guessed) && u.ChatID == 7)).length ≤ 25 ∧
    ratingRow 2 5 ∈
      GetRating [ratingRow 1 5, { ratingRow 9 4 with ChatID := 8 }, ratingRow 2 5, ratingRow 3 0] 7 :=
  ⟨by decide,
   ((GetRating_rows [ratingRow 1 5, { ratingRow 9 4 with ChatID := 8 }, ratingRow 2 5,
      ratingRow 3 0] 7).2.2 (by decide)).2 (ratingRow 2 5) (by decide) (by decide) (by decide)⟩

/-! ## Properties of the guess normalisation -/

theorem trim_dropWhile_eq {α : Type} (p : α → Bool) (l : List α) :
    ((l.dropWhile p).rdropWhile p).dropWhile p = (l.dropWhile p).rdropWhile p := by
  rw [List.dropWhile_eq_self_iff]
  intro hl
  have hpre : (l.dropWhile p).rdropWhile p <+: l.dropWhile p := List.rdropWhile_prefix p _
  have hlen : 0 < (l.dropWhile p).length := lt_of_lt_of_le hl hpre.length_le
  have h0 := List.dropWhile_get_zero_not p l hlen
  rw [List.get_eq_getElem] at h0 ⊢
  rw [hpre.getElem hl]
  exact h0

theorem trim_idem {α : Type} (p : α → Bool) (l : List α) :
    ((((l.dropWhile p).rdropWhile p).dropWhile p).rdropWhile p) = (l.dropWhile p).rdropWhile p := by
  rw [trim_dropWhile_eq, List.rdropWhile_idempotent]

theorem trim_subset {α : Type} (p : α → Bool) (l : List α) :
    ∀ c ∈ (l.dropWhile p).rdropWhile p, c ∈ l := fun _ hc =>
  (List.dropWhile_suffix p).subset ((List.rdropWhile_prefix p _).subset hc)

theorem unicodeToLower_ascii (n : Nat) (hn : n < 128) :
    (unicodeToLower id (Char.ofNat n)).toNat ≤ 0x7F ∧
    unicodeToLower id (unicodeToLower id (Char.ofNat n)) = unicodeToLower id (Char.ofNat n) := by
  revert n
  decide

theorem unicodeToLower_of_ascii (t : Char → Char) (c : Char) (h : c.toNat ≤ 0x7F) :
    unicodeToLower t c = unicodeToLower id c := by
  simp [unicodeToLower, h]

theorem unicodeToLower_idem (t : Char → Char)
    (ht : ∀ c : Char, 0x7F < c.toNat → unicodeToLower t (t c) = t c) (c : Char) :
    unicodeToLower t (unicodeToLower t c) = unicodeToLower t c := by
  by_cases h : c.toNat ≤ 0x7F
  · have hc := unicodeToLower_ascii c.toNat (by omega)
    rw [Char.ofNat_toNat] at hc
    rw [unicodeToLower_of_ascii t c h, unicodeToLower_of_ascii t _ hc.1]
    exact hc.2
  · have h1 : unicodeToLower t c = t c := by simp [unicodeToLower, h]
    rw [h1]
    exact ht c (by omega)

/-- C9. For every lower-case table of the Go library whose values are left unchanged by
`unicode.ToLower`, as the simple lower-case mapping of Unicode is, the normalisation
`TrimSpace(ToLower(x))` of `textHandler` is idempotent on every string; and for every table
it maps `"APPLE "` to `"apple"`. -/
theorem normalise_idempotent (lowerTable : Char → Char)
    (htable : ∀ c : Char, 0x7F < c.toNat →
      unicodeToLower lowerTable (lowerTable c) = lowerTable c) :
    (∀ x : String, normalise lowerTable (normalise lowerTable x) = normalise lowerTable x) ∧
    normalise lowerTable "APPLE " = "apple" := by
  refine ⟨?_, rfl⟩
  intro x
  have hmap : List.map (unicodeToLower lowerTable)
      (((x.data.map (unicodeToLower lowerTable)).dropWhile isSpace).rdropWhile isSpace)
      = ((x.data.map (unicodeToLower lowerTable)).dropWhile isSpace).rdropWhile isSpace := by
    refine (List.map_congr_left ?_).trans (List.map_id _)
    intro c hc
    obtain ⟨d, _, rfl⟩ := List.mem_map.mp (trim_subset isSpace _ c hc)
    exact unicodeToLower_idem lowerTable htable d
  simp only [normalise, TrimSpace, ToLower]
  rw [hmap, trim_idem]

/-- Witness of C9: the table that leaves every rune above U+007F unchanged. -/
theorem normalise_idempotent_witness :
    normalise id (normalise id " Hello World\n") = normalise id " Hello World\n" ∧
    normalise id " Hello World\n" = "hello world" :=
  ⟨(normalise_idempotent id (fun c h => by simp [unicodeToLower]; omega)).1 " Hello World\n",
   by decide⟩

/-! ## Properties of the configuration -/

/-- C10, at the failing input. With `CROCODILE_GAME_DB_OPTIONS=-c search_path=game` in the
environment, `KW` holds `options` with the value cut at its first `=`, and the connection
string ends in ` options=-c search_path`: the text `=game` is lost. A value without `=`, as
in `CROCODILE_GAME_DB_SSLMODE=disable`, is forwarded in full. -/
theorem getDbCredentialsFromEnv_cuts_value (lowerTable : Char → Char) :
    (getDbCredentialsFromEnv lowerTable
        ["CROCODILE_GAME_DB_PORT=5432", "CROCODILE_GAME_DB_HOST=db",
         "CROCODILE_GAME_DB_OPTIONS=-c search_path=game"]).map
      (fun c => (c.KW, connStringOf c))
    = .ok ([("options", "-c search_path")],
        "host=db port=5432 user= dbname= password= options=-c search_path") ∧
    (getDbCredentialsFromEnv lowerTable
        ["CROCODILE_GAME_DB_PORT=5432", "CROCODILE_GAME_DB_HOST=db",
         "CROCODILE_GAME_DB_SSLMODE=disable"]).map
      (fun c => (c.KW, connStringOf c))
    = .ok ([("sslmode", "disable")],
        "host=db port=5432 user= dbname= password= sslmode=disable") :=
  ⟨rfl, rfl⟩

/-! ## Properties of the router -/

/-- C3. In a chat that has a machine, a press of `see_word` or `next_word` by someone other
than the host is answered with the fixed text, the only call on the machine is `GetHost`
(neither `GetWord` nor `SetNewRandomWord`), the machines are unchanged, and the outcome is
the same for every other machine state with the same host, whatever its word; a press by
the host is answered with the result of `GetWord`, respectively with the word returned by
`SetNewRandomWord`. -/
theorem word_buttons_host_only {M : Type} (ops : MachineOps M) (machines : Machines M)
    (c : Callback) (m : M) (hm : machines c.Message.ChatID = some m) :
    (c.Sender.ID ≠ ops.GetHost m →
      seeWordCallbackHandler ops machines c =
        (machines, [Event.GetHost, Event.Respond "Это слово предназначено не для тебя!"]) ∧
      nextWordCallbackHandler ops machines c =
        (machines, [Event.GetHost, Event.Respond "Это слово предназначено не для тебя!"]) ∧
      Event.GetWord ∉ (seeWordCallbackHandler ops machines c).2 ∧
      Event.SetNewRandomWord ∉ (nextWordCallbackHandler ops machines c).2 ∧
      ∀ m2 : M, ops.GetHost m2 = ops.GetHost m →
        (seeWordCallbackHandler ops (Function.update machines c.Message.ChatID (some m2)) c).2 =
          (seeWordCallbackHandler ops machines c).2 ∧
        (nextWordCallbackHandler ops (Function.update machines c.Message.ChatID (some m2)) c).2 =
          (nextWordCallbackHandler ops machines c).2) ∧
    (c.Sender.ID = ops.GetHost m →
      seeWordCallbackHandler ops machines c =
        (machines, [Event.GetHost, Event.GetWord, Event.Respond (ops.GetWord m)]) ∧
      nextWordCallbackHandler ops machines c =
        (Function.update machines c.Message.ChatID (some (ops.SetNewRandomWord m).2),
          [Event.GetHost, Event.SetNewRandomWord,
            Event.Respond (ops.SetNewRandomWord m).1])) := by
  constructor
  · intro h
    refine ⟨?_, ?_, ?_, ?_, ?_⟩
    · simp [seeWordCallbackHandler, hm, h]
    · simp [nextWordCallbackHandler, hm, h]
    · simp [seeWordCallbackHandler, hm, h]
    · simp [nextWordCallbackHandler, hm, h]
    · intro m2 h2
      simp [seeWordCallbackHandler, nextWordCallbackHandler, hm, h, h2]
  · intro h
    simp [seeWordCallbackHandler, nextWordCallbackHandler, hm, h]

/-- Witness of C3: after Alice started the round of scenario 1, Bob presses both buttons. -/
theorem word_buttons_host_only_witness :
    seeWordCallbackHandler scenarioOps afterAliceStart (pressOf 2 "Bob" "") =
      (afterAliceStart, [Event.GetHost, Event.Respond "Это слово предназначено не для тебя!"]) ∧
    nextWordCallbackHandler scenarioOps afterAliceStart (pressOf 2 "Bob" "") =
      (afterAliceStart, [Event.GetHost, Event.Respond "Это слово предназначено не для тебя!"]) :=
  have h := (word_buttons_host_only scenarioOps afterAliceStart (pressOf 2 "Bob" "")
    { chat_id := 7
      round := some { host_id := 1, word := "apple", started_at := 0, winner := none }
      words := scenarioWords
      drawn := 1 } rfl).1 (by decide)
  ⟨h.1, h.2.1⟩

/-- C4. In a chat that has a machine, `textHandler` submits the normalised text to
`CheckWordAndSetWinner` exactly when the sender is not the host returned by `GetHost` or
`DEBUG` is set: it then stores the machine state that the call returns and announces the
win exactly when the call returns `true`; otherwise it makes no call but `GetHost`, sends
nothing and leaves the machines unchanged. In particular with `DEBUG` off a message of the
host is never submitted, whatever its text. -/
theorem textHandler_guess_iff {M : Type} (ops : MachineOps M) (lowerTable : Char → Char)
    (DEBUG : Bool) (now : Int) (machines : Machines M) (m : Message) (ma : M)
    (hm : machines m.ChatID = some ma) :
    ((∃ w id name, Event.CheckWordAndSetWinner w id name ∈
        (textHandler ops lowerTable DEBUG now machines m).2) ↔
      (ops.GetHost ma ≠ m.Sender.ID ∨ DEBUG = true)) ∧
    ((ops.GetHost ma ≠ m.Sender.ID ∨ DEBUG = true) →
      Event.CheckWordAndSetWinner (normalise lowerTable m.Text) m.Sender.ID
          (usernameOf m.Sender) ∈
        (textHandler ops lowerTable DEBUG now machines m).2) ∧
    (DEBUG = false → ops.GetHost ma = m.Sender.ID →
      textHandler ops lowerTable DEBUG now machines m = (machines, [Event.GetHost])) ∧
    ((ops.GetHost ma ≠ m.Sender.ID ∨ DEBUG = true) →
      textHandler ops lowerTable DEBUG now machines m =
        (Function.update machines m.ChatID
          (some (ops.CheckWordAndSetWinner now ma (normalise lowerTable m.Text) m.Sender.ID
            (usernameOf m.Sender)).2),
         [Event.GetHost,
          Event.CheckWordAndSetWinner (normalise lowerTable m.Text) m.Sender.ID
            (usernameOf m.Sender)] ++
          if (ops.CheckWordAndSetWinner now ma (normalise lowerTable m.Text) m.Sender.ID
              (usernameOf m.Sender)).1 = true then
            [Event.Send m.ChatID
              (usernameOf m.Sender ++ " отгадал слово <b>" ++ normalise lowerTable m.Text ++
                "</b>")
              true (some Keyboard.newGameInlineKeys)]
          else [])) ∧
    (¬ (ops.GetHost ma ≠ m.Sender.ID ∨ DEBUG = true) →
      textHandler ops lowerTable DEBUG now machines m = (machines, [Event.GetHost])) := by
  by_cases hc : ops.GetHost ma ≠ m.Sender.ID ∨ DEBUG = true
  · refine ⟨⟨fun _ => hc, fun _ => ?_⟩, fun _ => ?_, ?_, fun _ => ?_, fun h => absurd hc h⟩
    · refine ⟨normalise lowerTable m.Text, m.Sender.ID, usernameOf m.Sender, ?_⟩
      simp only [textHandler, hm, if_pos hc]
      split <;> simp
    · simp only [textHandler, hm, if_pos hc]
      split <;> simp
    · intro hd hh
      rcases hc with hc | hc
      · exact absurd hh hc
      · rw [hd] at hc
        exact absurd hc (by decide)
    · simp only [textHandler, hm, if_pos hc]
      split <;> rfl
  · refine ⟨⟨fun h => ?_, fun h => absurd h hc⟩, fun h => absurd h hc, ?_,
      fun h => absurd h hc, fun _ => ?_⟩
    · obtain ⟨w, id, name, hmem⟩ := h
      simp [textHandler, hm, if_neg hc] at hmem
    · intro _ _
      simp only [textHandler, hm, if_neg hc]
    · simp only [textHandler, hm, if_neg hc]

/-- Witness of C4, in the round of scenario 1 (host Alice, word `"apple"`) with `DEBUG`
off: the text `"apple"` of Alice is not submitted; the text `"APPLE "` of Bob is submitted,
wins, and leaves the machine waiting for the winner; the text `"pear"` of Bob is submitted
and sends nothing. -/
theorem textHandler_guess_iff_witness :
    textHandler scenarioOps id false 5 afterAliceStart (msgOf 1 "Alice" "" "apple") =
      (afterAliceStart, [Event.GetHost]) ∧
    (textHandler scenarioOps id false 10 afterAliceStart (msgOf 2 "Bob" "" "APPLE ")).2 =
      [Event.GetHost, Event.CheckWordAndSetWinner "apple" 2 "Bob",
       Event.Send 7 "Bob отгадал слово <b>apple</b>" true (some Keyboard.newGameInlineKeys)] ∧
    ((textHandler scenarioOps id false 10 afterAliceStart (msgOf 2 "Bob" "" "APPLE ")).1 7).map
      Machine.state = some State.AwaitingWinnerStart ∧
    (textHandler scenarioOps id false 10 afterAliceStart (msgOf 2 "Bob" "" "pear")).2 =
      [Event.GetHost, Event.CheckWordAndSetWinner "pear" 2 "Bob"] :=
  ⟨(textHandler_guess_iff scenarioOps id false 5 afterAliceStart (msgOf 1 "Alice" "" "apple")
      { chat_id := 7
        round := some { host_id := 1, word := "apple", started_at := 0, winner := none }
        words := scenarioWords
        drawn := 1 } rfl).2.2.1 rfl (by decide),
   congrArg Prod.snd
    ((textHandler_guess_iff scenarioOps id false 10 afterAliceStart
      (msgOf 2 "Bob" "" "APPLE ")
      { chat_id := 7
        round := some { host_id := 1, word := "apple", started_at := 0, winner := none }
        words := scenarioWords
        drawn := 1 } rfl).2.2.2.1 (Or.inl (by decide))),
   congrArg (fun x => (x.1 7).map Machine.state)
    ((textHandler_guess_iff scenarioOps id false 10 afterAliceStart
      (msgOf 2 "Bob" "" "APPLE ")
      { chat_id := 7
        round := some { host_id := 1, word := "apple", started_at := 0, winner := none }
        words := scenarioWords
        drawn := 1 } rfl).2.2.2.1 (Or.inl (by decide))),
   congrArg Prod.snd
    ((textHandler_guess_iff scenarioOps id false 10 afterAliceStart
      (msgOf 2 "Bob" "" "pear")
      { chat_id := 7
        round := some { host_id := 1, word := "apple", started_at := 0, winner := none }
        words := scenarioWords
        drawn := 1 } rfl).2.2.2.1 (Or.inl (by decide)))⟩

theorem CalculateTimeDiff_minutes (now started : Int) :
    (CalculateTimeDiff now started).2.1 < 2 ↔ now - started < 120 := by
  simp only [CalculateTimeDiff]
  omega

/-- C5. A start event, sent as `/start` (message `m`) or as the `new_game` button (press
`c` of the same sender in the same chat), reaches a machine that refuses the start with
`ErrGameAlreadyStarted`, as a machine with a running round does, and is then in state
`ma1`. With `elapsed = now - GetStartedTime()`: below 120 seconds the router only replies
with the already-started text (no `StopGame`, no second start); from 120 seconds on,
however large, it calls `StopGame`, then `StartNewGameAndReturnWord` for the caller on the
stopped machine, and announces the round. In scenario 5 (round of Alice started at 0, Dave
at 130) the chat is left with a running round hosted by Dave and started at 130. -/
theorem start_on_running_round {M : Type} (ops : MachineOps M) (now : Int)
    (machines : Machines M) (m : Message) (c : Callback) (ma ma1 : M)
    (hchat : c.Message.ChatID = m.ChatID) (hsender : c.Sender = m.Sender)
    (hm : machines m.ChatID = some ma)
    (hrun : ops.StartNewGameAndReturnWord now ma m.Sender.ID (usernameOf m.Sender)
      = (.error ops.ErrGameAlreadyStarted, ma1)) :
    (now - ops.GetStartedTime ma1 < 120 →
      startNewGameHandler ops now machines m =
        (Function.update machines m.ChatID (some ma1),
         [Event.StartNewGameAndReturnWord m.Sender.ID (usernameOf m.Sender),
          Event.GetStartedTime,
          Event.Send m.ChatID "Игра уже начата! Ожидайте 2 минуты" false none]) ∧
      startNewGameHandlerCallback ops now machines c =
        (Function.update machines m.ChatID (some ma1),
         [Event.StartNewGameAndReturnWord m.Sender.ID (usernameOf m.Sender),
          Event.GetStartedTime,
          Event.Respond "Игра уже начата! Ожидайте 2 минуты"])) ∧
    (120 ≤ now - ops.GetStartedTime ma1 →
      startNewGameHandler ops now machines m =
        (Function.update machines m.ChatID
          (some (ops.StartNewGameAndReturnWord now (ops.StopGame ma1) m.Sender.ID
            (usernameOf m.Sender)).2),
         [Event.StartNewGameAndReturnWord m.Sender.ID (usernameOf m.Sender),
          Event.GetStartedTime, Event.StopGame,
          Event.StartNewGameAndReturnWord m.Sender.ID (usernameOf m.Sender)] ++
          logIfError (ops.StartNewGameAndReturnWord now (ops.StopGame ma1) m.Sender.ID
            (usernameOf m.Sender)).1 ++
          [Event.Send m.ChatID (m.Sender.FirstName ++ " должен объяснить слово за 2 минуты")
            false (some Keyboard.wordsInlineKeys)]) ∧
      startNewGameHandlerCallback ops now machines c =
        startNewGameHandler ops now machines m) ∧
    (startNewGameHandler scenarioOps 130 afterAliceStart (msgOf 4 "Dave" "" "/start")).2 =
      [Event.StartNewGameAndReturnWord 4 "Dave", Event.GetStartedTime, Event.StopGame,
       Event.StartNewGameAndReturnWord 4 "Dave",
       Event.Send 7 "Dave должен объяснить слово за 2 минуты" false
         (some Keyboard.wordsInlineKeys)] ∧
    ((startNewGameHandler scenarioOps 130 afterAliceStart (msgOf 4 "Dave" "" "/start")).1 7).map
        (fun x => (x.state, scenarioOps.GetHost x, scenarioOps.GetStartedTime x)) =
      some (State.Running, 4, 130) := by
  have hm2 : machines c.Message.ChatID = some ma := by rw [hchat]; exact hm
  refine ⟨?_, ?_, by decide, by decide⟩
  · intro hlt
    have hms := (CalculateTimeDiff_minutes now _).mpr hlt
    constructor
    · simp only [startNewGameHandler, machineOf, hm, hrun, if_true, if_pos hms]
      rfl
    · simp only [startNewGameHandlerCallback, machineOf, hm, hm2, hsender, hchat, hrun, if_true,
        if_pos hms]
      rfl
  · intro hge
    have hms : ¬ (CalculateTimeDiff now (ops.GetStartedTime ma1)).2.1 < 2 := by
      rw [CalculateTimeDiff_minutes]
      omega
    constructor
    · simp only [startNewGameHandler, machineOf, hm, hrun, if_true, if_neg hms]
      rfl
    · simp only [startNewGameHandlerCallback, startNewGameHandler, machineOf, hm, hm2, hsender,
        hchat, hrun, if_true, if_neg hms]

/-- Witness of C5: scenario 5, with Dave sending `/start` or pressing `new_game` at 130. -/
theorem start_on_running_round_witness :
    startNewGameHandlerCallback scenarioOps 130 afterAliceStart (pressOf 4 "Dave" "") =
      startNewGameHandler scenarioOps 130 afterAliceStart (msgOf 4 "Dave" "" "/start") :=
  ((start_on_running_round scenarioOps 130 afterAliceStart (msgOf 4 "Dave" "" "/start")
    (pressOf 4 "Dave" "")
    { chat_id := 7
      round := some { host_id := 1, word := "apple", started_at := 0, winner := none }
      words := scenarioWords
      drawn := 1 }
    { chat_id := 7
      round := some { host_id := 1, word := "apple", started_at := 0, winner := none }
      words := scenarioWords
      drawn := 1 } rfl rfl rfl rfl).2.1 (by decide)).2

/-- For the machine of the spec in state `Running`: a start event at least 120 seconds
after `started_at` makes the router stop the round and start a new one, which leaves the
chat with a running round hosted by the caller and started now; before that the machine
is left as it was. -/
theorem start_on_running_specMachine (lowerTable : Char → Char) (words : Nat → String)
    (now : Int) (machines : Machines Machine) (m : Message) (ma : Machine)
    (hm : machines m.ChatID = some ma) (hstate : ma.state = State.Running) :
    (now - (specMachine lowerTable words).GetStartedTime ma < 120 →
      (startNewGameHandler (specMachine lowerTable words) now machines m).1 m.ChatID =
        some ma) ∧
    (120 ≤ now - (specMachine lowerTable words).GetStartedTime ma →
      ((startNewGameHandler (specMachine lowerTable words) now machines m).1 m.ChatID).map
          (fun x => (x.state, (specMachine lowerTable words).GetHost x,
            (specMachine lowerTable words).GetStartedTime x)) =
        some (State.Running, m.Sender.ID, now) ∧
      (startNewGameHandler (specMachine lowerTable words) now machines m).2 =
        [Event.StartNewGameAndReturnWord m.Sender.ID (usernameOf m.Sender),
         Event.GetStartedTime, Event.StopGame,
         Event.StartNewGameAndReturnWord m.Sender.ID (usernameOf m.Sender),
         Event.Send m.ChatID (m.Sender.FirstName ++ " должен объяснить слово за 2 минуты")
           false (some Keyboard.wordsInlineKeys)]) := by
  obtain ⟨chat, round, ws, drawn⟩ := ma
  cases round with
  | none => simp [Machine.state] at hstate
  | some r =>
    obtain ⟨host, word, started, winner⟩ := r
    cases winner with
    | some w => simp [Machine.state] at hstate
    | none =>
      have hrun : (specMachine lowerTable words).StartNewGameAndReturnWord now
          { chat_id := chat
            round := some { host_id := host, word := word, started_at := started, winner := none }
            words := ws
            drawn := drawn } m.Sender.ID (usernameOf m.Sender)
          = (.error (specMachine lowerTable words).ErrGameAlreadyStarted,
              { chat_id := chat
                round := some { host_id := host, word := word, started_at := started,
                                winner := none }
                words := ws
                drawn := drawn }) := rfl
      constructor
      · intro hlt
        have hms := (CalculateTimeDiff_minutes now _).mpr hlt
        simp only [startNewGameHandler, machineOf, hm, hrun, if_true, if_pos hms]
        simp
      · intro hge
        have hms : ¬ (CalculateTimeDiff now ((specMachine lowerTable words).GetStartedTime
            { chat_id := chat
              round := some { host_id := host, word := word, started_at := started,
                              winner := none }
              words := ws
              drawn := drawn })).2.1 < 2 := by
          rw [CalculateTimeDiff_minutes]
          omega
        simp only [startNewGameHandler, machineOf, hm, hrun, if_true, if_neg hms]
        constructor
        · simp [specMachine, Machine.enterRunning, Machine.state]
        · rfl

/-- On a start refused with `ErrWaitingForWinnerRespond` the `/start` handler only logs the
error, while the `new_game` handler answers the press with the winner-option text. -/
theorem start_refused_for_winner {M : Type} (ops : MachineOps M) (now : Int)
    (machines : Machines M) (m : Message) (c : Callback) (ma ma1 : M)
    (hchat : c.Message.ChatID = m.ChatID) (hsender : c.Sender = m.Sender)
    (hm : machines m.ChatID = some ma)
    (hne : ops.ErrWaitingForWinnerRespond ≠ ops.ErrGameAlreadyStarted)
    (hheld : ops.StartNewGameAndReturnWord now ma m.Sender.ID (usernameOf m.Sender)
      = (.error ops.ErrWaitingForWinnerRespond, ma1)) :
    startNewGameHandler ops now machines m =
      (Function.update machines m.ChatID (some ma1),
       [Event.StartNewGameAndReturnWord m.Sender.ID (usernameOf m.Sender),
        Event.Println ops.ErrWaitingForWinnerRespond]) ∧
    startNewGameHandlerCallback ops now machines c =
      (Function.update machines m.ChatID (some ma1),
       [Event.StartNewGameAndReturnWord m.Sender.ID (usernameOf m.Sender),
        Event.Respond "У победителя есть 5 секунд на решение!"]) := by
  have hm2 : machines c.Message.ChatID = some ma := by rw [hchat]; exact hm
  constructor
  · simp only [startNewGameHandler, machineOf, hm, hheld, if_neg hne]
    rfl
  · simp only [startNewGameHandlerCallback, machineOf, hm, hm2, hsender, hchat, hheld,
      if_neg hne, if_true]
    rfl

/-- C6, at the failing input. Bob won the round of scenario 1 at 10 and holds the option;
at 12 Carol sends `/start`: the handler logs the error and sends nothing, and the machine
still waits for the winner. The same event sent through the `new_game` button is answered
with the winner-option text. -/
theorem start_command_silent_on_winner_option :
    (startNewGameHandler scenarioOps 12 afterBobWins (msgOf 3 "Carol" "" "/start")).2 =
      [Event.StartNewGameAndReturnWord 3 "Carol", Event.Println "ErrWaitingForWinnerRespond"] ∧
    ((startNewGameHandler scenarioOps 12 afterBobWins (msgOf 3 "Carol" "" "/start")).1 7).map
      Machine.state = some State.AwaitingWinnerStart ∧
    (startNewGameHandlerCallback scenarioOps 12 afterBobWins (pressOf 3 "Carol" "")).2 =
      [Event.StartNewGameAndReturnWord 3 "Carol",
       Event.Respond "У победителя есть 5 секунд на решение!"] := by
  decide

theorem escapeRune_no_markup (d c : Char) (hc : c ∈ escapeRune d) :
    c.toNat ≠ 0x3C ∧ c.toNat ≠ 0x3E ∧ c.toNat ≠ 0x22 ∧ c.toNat ≠ 0x27 := by
  unfold escapeRune at hc
  split_ifs at hc with h1 h2 h3 h4 h5
  all_goals
    simp only [List.mem_cons, List.mem_singleton, List.not_mem_nil, or_false] at hc
  · rcases hc with rfl | rfl | rfl | rfl | rfl <;> decide
  · rcases hc with rfl | rfl | rfl | rfl | rfl <;> decide
  · rcases hc with rfl | rfl | rfl | rfl <;> decide
  · rcases hc with rfl | rfl | rfl | rfl <;> decide
  · rcases hc with rfl | rfl | rfl | rfl | rfl <;> decide
  · subst hc
    exact ⟨h3, h4, h5, h2⟩

/-- The result of `html.EscapeString`, as used on the names of the rating table, holds none
of the runes `<`, `>`, `"` and the apostrophe. -/
theorem EscapeString_no_markup (s : String) (c : Char) (hc : c ∈ (EscapeString s).data) :
    c.toNat ≠ 0x3C ∧ c.toNat ≠ 0x3E ∧ c.toNat ≠ 0x22 ∧ c.toNat ≠ 0x27 := by
  unfold EscapeString at hc
  obtain ⟨d, _, hd⟩ := List.mem_flatMap.mp hc
  exact escapeRune_no_markup d c hd

/-- On a winning guess `textHandler` sends, in HTML mode, the display name of the sender as
it is, followed by the fixed text and the normalised guess. -/
theorem textHandler_win_announcement {M : Type} (ops : MachineOps M)
    (lowerTable : Char → Char) (DEBUG : Bool) (now : Int) (machines : Machines M)
    (m : Message) (ma ma1 : M) (hm : machines m.ChatID = some ma)
    (hguess : ops.GetHost ma ≠ m.Sender.ID ∨ DEBUG = true)
    (hwin : ops.CheckWordAndSetWinner now ma (normalise lowerTable m.Text) m.Sender.ID
      (usernameOf m.Sender) = (true, ma1)) :
    textHandler ops lowerTable DEBUG now machines m =
      (Function.update machines m.ChatID (some ma1),
       [Event.GetHost,
        Event.CheckWordAndSetWinner (normalise lowerTable m.Text) m.Sender.ID
          (usernameOf m.Sender),
        Event.Send m.ChatID
          (usernameOf m.Sender ++ " отгадал слово <b>" ++ normalise lowerTable m.Text ++ "</b>")
          true (some Keyboard.newGameInlineKeys)]) := by
  simp only [textHandler, hm, if_pos hguess, hwin, if_true]

/-- C8, at the failing input. In the round of scenario 1 a user whose first name is
`<i>Bob` guesses the word: the win announcement, sent in HTML mode, carries the name as it
is, while `html.EscapeString` would give `&lt;i&gt;Bob`. -/
theorem textHandler_sends_raw_name :
    (textHandler scenarioOps id false 10 afterAliceStart (msgOf 2 "<i>Bob" "" "apple")).2 =
      [Event.GetHost, Event.CheckWordAndSetWinner "apple" 2 "<i>Bob",
       Event.Send 7 "<i>Bob отгадал слово <b>apple</b>" true
         (some Keyboard.newGameInlineKeys)] ∧
    EscapeString "<i>Bob" = "&lt;i&gt;Bob" := by
  decide

end Crocodile
